import Mathlib

/-!
Verification of the change-detection polling engine of
`loxone_knx_datalogger.py` (class `LoxoneAnalyzer`): the state-fetch
function `get_control_state`, the baseline pass and monitoring loop of
`start_group_monitoring` / `monitor_loop`, and the CSV change log.

The embedding is a faithful shallow translation of the source:
  * the last-known-state dictionary `last_states` becomes an association
    list `Table` with Python-dict get/set semantics;
  * each CSV-file side effect (`writeheader`, `writerow`, `flush`,
    `close`) becomes an explicit event `Ev` in a trace, and the file on
    disk is a list of `Line`s to which events append;
  * the per-fetch HTTP interaction of `get_control_state` becomes a
    value of type `HttpResult` (transport error, timeout, status code
    plus body);
  * the shared cancellation flag `monitoring["active"]`, which the loop
    reads exactly once per tick boundary (`while monitoring["active"]`),
    becomes a function `active : Nat → Bool` giving the value the flag
    read at the t-th boundary check, together with a fuel argument that
    bounds the recursion (all theorems about full runs hypothesise that
    the flag is observed false within fuel).
-/

namespace Lox

/-- One monitored control, as handed to `start_group_monitoring`: the
`uuid`, `name`, `type_readable` and `room` fields of the classification
dictionaries built by `classify_control` (source lines 206-215).
`room` is `none` when the control has no resolvable room. -/
structure Control where
  uuid : String
  name : String
  type_readable : String
  room : Option String
deriving DecidableEq, Repr

/-- Python truthiness of `x or d` for an optional string `x` (source
lines 510 and 547: `control['room'] or 'Sin habitación'`): `None` and
the empty string are falsy. -/
def pyOr (x : Option String) (d : String) : String :=
  match x with
  | none => d
  | some s => if s = "" then d else s

/-- One CSV record, with the columns of `fieldnames` (source line 485):
`['timestamp', 'uuid', 'name', 'type', 'room', 'state']`. -/
structure Row where
  timestamp : String
  uuid : String
  name : String
  type : String
  room : String
  state : String
deriving DecidableEq, Repr

/-- The row dict built for a control and a state (source lines 505-512
and 542-549; both sites build it identically). -/
def mkRow (ts : String) (c : Control) (st : String) : Row :=
  { timestamp := ts
    uuid := c.uuid
    name := c.name
    type := c.type_readable
    room := pyOr c.room "Sin habitación"
    state := st }

/-- A side effect on the CSV file handle, in program order:
`writer.writeheader()`, `writer.writerow(row)`, `csvfile.flush()`,
`csvfile.close()`. -/
inductive Ev where
  | header : Ev
  | write (r : Row) : Ev
  | flush : Ev
  | close : Ev
deriving DecidableEq, Repr

/-- One line of the CSV file on disk: the header line or a data row. -/
inductive Line where
  | header : Line
  | data (r : Row) : Line
deriving DecidableEq, Repr

/-- The `last_states` dictionary (source line 481): entity uuid to last
successfully observed state. -/
abbrev Table := List (String × String)

/-- `last_states.get(uuid)` (source line 535): `none` when absent. -/
def tableGet : Table → String → Option String
  | [], _ => none
  | (k, v) :: rest, key => if k = key then some v else tableGet rest key

/-- `last_states[uuid] = state` (source lines 502 and 540): overwrite
the entry unconditionally, keeping dict semantics. -/
def tableSet : Table → String → String → Table
  | [], key, val => [(key, val)]
  | (k, v) :: rest, key, val =>
      if k = key then (key, val) :: rest else (k, v) :: tableSet rest key val

/-! ## `get_control_state` (source lines 437-454) -/

/-- A JSON value as decoded by `response.json()`.  JSON numbers are
modelled as integers (the state string is treated as opaque everywhere
downstream, so only the case analysis matters). -/
inductive Json where
  | null : Json
  | bool (b : Bool) : Json
  | num (n : Int) : Json
  | str (s : String) : Json
  | arr (elems : List Json) : Json
  | obj (fields : List (String × Json)) : Json

/-- Key lookup in a decoded JSON object.  Python's `json.loads` keeps
the last occurrence of a duplicated key, so lookup prefers later
fields. -/
def jlookup : List (String × Json) → String → Option Json
  | [], _ => none
  | (k, v) :: rest, key =>
      match jlookup rest key with
      | some w => some w
      | none => if k = key then some v else none

mutual

/-- Python `repr` of a JSON-decoded value, used by `str` on containers. -/
def pyRepr : Json → String
  | Json.null => "None"
  | Json.bool true => "True"
  | Json.bool false => "False"
  | Json.num n => toString n
  | Json.str s => "\x27" ++ s ++ "\x27"
  | Json.arr es => "[" ++ pyReprList es ++ "]"
  | Json.obj fs => "\x7b" ++ pyReprFields fs ++ "\x7d"

/-- Comma-separated `repr`s of the elements of a JSON array. -/
def pyReprList : List Json → String
  | [] => ""
  | [v] => pyRepr v
  | v :: w :: rest => pyRepr v ++ ", " ++ pyReprList (w :: rest)

/-- Comma-separated `key: value` `repr`s of the fields of a JSON object. -/
def pyReprFields : List (String × Json) → String
  | [] => ""
  | [(k, v)] => "\x27" ++ k ++ "\x27: " ++ pyRepr v
  | (k, v) :: w :: rest =>
      "\x27" ++ k ++ "\x27: " ++ pyRepr v ++ ", " ++ pyReprFields (w :: rest)

end

/-- Python `str(...)` applied to the extracted `value` field (source
line 449): the identity on strings, `repr`-like on everything else. -/
def pyStr (v : Json) : String :=
  match v with
  | Json.str s => s
  | _ => pyRepr v

/-- The body of a completed HTTP response: either not decodable as JSON
(`response.json()` raises) or a decoded JSON value. -/
inductive Body where
  | malformed : Body
  | json (v : Json) : Body

/-- The outcome of the `requests.get(url, auth=..., timeout=5)` call in
`get_control_state`: a transport-level failure, the 5-second timeout,
or a completed response with a status code and a body. -/
inductive HttpResult where
  | transportError : HttpResult
  | timeout : HttpResult
  | response (status : Nat) (body : Body) : HttpResult

/-- `get_control_state` (source lines 437-454).  The bare `except:`
catches every raised exception and returns `None`, so the function is
total: a transport error or timeout raises inside `requests.get`; a
client- or server-error status makes `raise_for_status()` raise — the
requests library raises exactly for statuses 400-599, and a completed
response with any other status code proceeds to `response.json()`; a
malformed body makes `response.json()` raise; and a payload that is
not an object with an `LL` object containing a `value` key either
falls through the `if` at line 448 or raises a `TypeError` while
indexing — every such path yields `None`.  On success the function
returns `str(data['LL']['value'])`. -/
def get_control_state (resp : HttpResult) : Option String :=
  match resp with
  | HttpResult.transportError => none
  | HttpResult.timeout => none
  | HttpResult.response status body =>
      if 400 ≤ status ∧ status < 600 then none
      else
        match body with
        | Body.malformed => none
        | Body.json data =>
            match data with
            | Json.obj fields =>
                match jlookup fields "LL" with
                | some (Json.obj inner) =>
                    match jlookup inner "value" with
                    | some v => some (pyStr v)
                    | none => none
                | _ => none
            | _ => none

/-! ## The baseline pass and the monitoring loop (source lines 456-587)

Fetch outcomes are supplied by an oracle `fetch : Nat → String → Option
String` mapping a tick index (0 for the baseline pass, 1, 2, ... for
the loop's ticks) and a control uuid to the result of
`get_control_state` at that moment.  Timestamps are likewise supplied
by oracles (`btime i` for the i-th control of the baseline pass, which
calls `datetime.now()` per row; `ttime t` for tick t, which computes
one timestamp per tick at source line 526). -/

/-- The baseline pass (source lines 497-514): for each selected
control, fetch its state; on success store it in `last_states` and
write an initial row; on `None` skip the control entirely. -/
def baselinePass (fetch0 : String → Option String) (btime : Nat → String) :
    List Control → Nat → Table → Table × List Ev
  | [], _, st => (st, [])
  | c :: rest, i, st =>
      match fetch0 c.uuid with
      | none => baselinePass fetch0 btime rest (i + 1) st
      | some s =>
          let res := baselinePass fetch0 btime rest (i + 1) (tableSet st c.uuid s)
          (res.1, Ev.write (mkRow (btime i) c s) :: res.2)

/-- Processing of one control within one tick (source lines 528-555):
fetch; if `None` do nothing; otherwise compare with
`last_states.get(uuid)` (`None` when absent) and, exactly when they
differ, bump `changes_count`, store the new state, write a row and
flush. -/
def tickControl (fetch : String → Option String) (ts : String) (c : Control)
    (st : Table) (changes : Nat) : Table × List Ev × Nat :=
  match fetch c.uuid with
  | none => (st, [], changes)
  | some new =>
      if some new ≠ tableGet st c.uuid then
        (tableSet st c.uuid new, [Ev.write (mkRow ts c new), Ev.flush], changes + 1)
      else
        (st, [], changes)

/-- One full tick over the selected controls in catalog order (the
`for control in selected_controls` loop at source line 528). -/
def tickControls (fetch : String → Option String) (ts : String) :
    List Control → Table → Nat → Table × List Ev × Nat
  | [], st, changes => (st, [], changes)
  | c :: rest, st, changes =>
      let fir := tickControl fetch ts c st changes
      let res := tickControls fetch ts rest fir.1 fir.2.2
      (res.1, fir.2.1 ++ res.2.1, res.2.2)

/-- Exactly `n` complete ticks starting at tick index `t`: the
denotation of the monitoring loop once the number of boundary checks
that read the flag as true is known.  Returns the final table, the
event trace, and the final `checks_count` and `changes_count`
(`checks_count` is incremented at the top of each tick, source
line 525). -/
def runTicksAux (fetch : Nat → String → Option String) (ttime : Nat → String)
    (controls : List Control) : Nat → Nat → Table → Nat → Nat →
    Table × List Ev × Nat × Nat
  | 0, _, st, checks, changes => (st, [], checks, changes)
  | n + 1, t, st, checks, changes =>
      let tick := tickControls (fetch t) (ttime t) controls st changes
      let rest := runTicksAux fetch ttime controls n (t + 1) tick.1 (checks + 1) tick.2.2
      (rest.1, tick.2.1 ++ rest.2.1, rest.2.2.1, rest.2.2.2)

/-- The `while monitoring["active"]` loop of `monitor_loop` (source
lines 524-562).  The shared flag is read exactly once per tick
boundary; `active t` is the value that the t-th boundary check reads
(t = 1, 2, ...).  `fuel` bounds the recursion; every theorem about a
complete run hypothesises that the flag is observed false before fuel
runs out, which makes the result independent of `fuel`. -/
def monitor_loopAux (fetch : Nat → String → Option String) (ttime : Nat → String)
    (active : Nat → Bool) (controls : List Control) :
    Nat → Nat → Table → Nat → Nat → Table × List Ev × Nat × Nat
  | 0, _, st, checks, changes => (st, [], checks, changes)
  | fuel + 1, t, st, checks, changes =>
      if active t then
        let tick := tickControls (fetch t) (ttime t) controls st changes
        let rest := monitor_loopAux fetch ttime active controls fuel (t + 1) tick.1
          (checks + 1) tick.2.2
        (rest.1, tick.2.1 ++ rest.2.1, rest.2.2.1, rest.2.2.2)
      else
        (st, [], checks, changes)

/-- `writer.writeheader()` is executed exactly when the destination did
not exist before `open(csv_filename, 'a')` (source lines 488-493);
`existing = none` models a nonexistent destination. -/
def headerEvents (existing : Option (List Line)) : List Ev :=
  if existing = none then [Ev.header] else []

/-- The lines a trace of file events appends to the file (append mode:
`flush` and `close` add nothing). -/
def linesOf : List Ev → List Line
  | [] => []
  | Ev.header :: rest => Line.header :: linesOf rest
  | Ev.write r :: rest => Line.data r :: linesOf rest
  | Ev.flush :: rest => linesOf rest
  | Ev.close :: rest => linesOf rest

/-- The error with which session start fails synchronously (source
lines 459-461: the early return when no controls are selected). -/
inductive StartError where
  | NoEntitiesSelected : StartError
deriving DecidableEq, Repr

/-- The observable outcome of one complete monitoring session:
the file-event trace, the final file contents, the final `last_states`
table, the final counters, the final statistics surfaced on the
operator console by `monitor_loop` (source lines 565-567), and the
value `start_group_monitoring` returns to its caller (the source
function has no return statement on this path, i.e. it returns
`None`). -/
structure SessionResult where
  events : List Ev
  finalFile : List Line
  table : Table
  checks : Nat
  changes : Nat
  finalReport : Option (Nat × Nat)
  returned : Option (Nat × Nat)
deriving DecidableEq, Repr

/-- The baseline-pass part of a session (source lines 497-514), started
on an empty `last_states` dictionary. -/
def baselineOf (fetch : Nat → String → Option String) (btime : Nat → String)
    (cs : List Control) : Table × List Ev :=
  baselinePass (fetch 0) btime cs 0 []

/-- The monitoring-loop part of a session, started on the table left by
the baseline pass, with both counters at 0 (source lines 521-522). -/
def loopOf (fetch : Nat → String → Option String) (btime ttime : Nat → String)
    (active : Nat → Bool) (fuel : Nat) (cs : List Control) :
    Table × List Ev × Nat × Nat :=
  monitor_loopAux fetch ttime active cs fuel 1 (baselineOf fetch btime cs).1 0 0

/-- `start_group_monitoring` (source lines 456-587) on the run where no
write raises: validate the selection (early return with the
no-controls message, before the file is opened, when it is empty); open
the destination in append mode, writing the header exactly when the
file did not exist; run the baseline pass and flush once after it
(source line 516); run the monitoring loop until the flag is observed
false; close the handle (source line 564) and print the final counters
(source lines 566-567).  The function itself returns `None` to its
caller. -/
def start_group_monitoring (existing : Option (List Line))
    (fetch : Nat → String → Option String) (btime ttime : Nat → String)
    (active : Nat → Bool) (fuel : Nat) (selected_controls : List Control) :
    Except StartError SessionResult :=
  if selected_controls = [] then Except.error StartError.NoEntitiesSelected
  else
    let b := baselineOf fetch btime selected_controls
    let l := loopOf fetch btime ttime active fuel selected_controls
    let evs := headerEvents existing ++ b.2 ++ [Ev.flush] ++ l.2.1 ++ [Ev.close]
    Except.ok
      { events := evs
        finalFile := (existing.getD []) ++ linesOf evs
        table := l.1
        checks := l.2.2.1
        changes := l.2.2.2
        finalReport := some (l.2.2.1, l.2.2.2)
        returned := none }

/-- File events of a session run: none at all when start fails (the
early return precedes the `open` call). -/
def sessionEvents : Except StartError SessionResult → List Ev
  | Except.error _ => []
  | Except.ok r => r.events

/-- Final `last_states` table of a session run (empty when start
fails: the dictionary is never populated). -/
def sessionTable : Except StartError SessionResult → Table
  | Except.error _ => []
  | Except.ok r => r.table

/-- Final state of the destination file: unchanged (in particular not
created) when start fails before the `open` call. -/
def sessionFinalFile (existing : Option (List Line)) :
    Except StartError SessionResult → Option (List Line)
  | Except.error _ => existing
  | Except.ok r => some r.finalFile

/-- The value `start_group_monitoring` returns to its caller. -/
def sessionReturned : Except StartError SessionResult → Option (Nat × Nat)
  | Except.error _ => none
  | Except.ok r => r.returned

/-- The final counters printed on the operator console when the loop
stops. -/
def sessionFinalReport : Except StartError SessionResult → Option (Nat × Nat)
  | Except.error _ => none
  | Except.ok r => r.finalReport

/-- Whether session start succeeded. -/
def sessionOk : Except StartError SessionResult → Bool
  | Except.error _ => false
  | Except.ok _ => true

/-! ## The error exit path (claim C5)

When a `writer.writerow` call of the baseline pass raises (for example
a persistence write failure), the exception propagates out of the `try`
block to the handler at source lines 585-587, which prints the error
and clears the flag but never calls `csvfile.close()`; the monitoring
thread is never started.  The following definitions give the file-event
trace of that run: `failAt` is the index, among the baseline writerow
calls actually attempted, of the one that raises (the raising call
appends nothing). -/

/-- Baseline-pass events up to and excluding the `failAt`-th writerow
call, which raises. -/
def baselineEvsFail (fetch0 : String → Option String) (btime : Nat → String) :
    List Control → Nat → Nat → List Ev
  | [], _, _ => []
  | c :: rest, i, k =>
      match fetch0 c.uuid with
      | none => baselineEvsFail fetch0 btime rest (i + 1) k
      | some s =>
          match k with
          | 0 => []
          | j + 1 => Ev.write (mkRow (btime i) c s) :: baselineEvsFail fetch0 btime rest (i + 1) j

/-- The file-event trace of a session whose `failAt`-th baseline
writerow raises: the header (when the file was new) and the rows
written before the failure; no flush and no close ever happen on this
exit path. -/
def start_group_monitoring_baselineWriteError (existing : Option (List Line))
    (fetch0 : String → Option String) (btime : Nat → String)
    (selected_controls : List Control) (failAt : Nat) : List Ev :=
  if selected_controls = [] then []
  else headerEvents existing ++ baselineEvsFail fetch0 btime selected_controls 0 failAt

/-! ## Trace observations -/

/-- The data rows written to the file for a given entity uuid, in
order. -/
def writesFor (u : String) : List Ev → List Row
  | [] => []
  | Ev.write r :: rest => if r.uuid = u then r :: writesFor u rest else writesFor u rest
  | _ :: rest => writesFor u rest

/-- Number of `writerow` events in a trace. -/
def writeCount : List Ev → Nat
  | [] => 0
  | Ev.write _ :: rest => writeCount rest + 1
  | _ :: rest => writeCount rest

/-- Number of `flush` events in a trace. -/
def flushCount : List Ev → Nat
  | [] => 0
  | Ev.flush :: rest => flushCount rest + 1
  | _ :: rest => flushCount rest

/-- Number of `close` events in a trace. -/
def closeCount : List Ev → Nat
  | [] => 0
  | Ev.close :: rest => closeCount rest + 1
  | _ :: rest => closeCount rest

/-- Number of `writeheader` events in a trace. -/
def headerEvCount : List Ev → Nat
  | [] => 0
  | Ev.header :: rest => headerEvCount rest + 1
  | _ :: rest => headerEvCount rest

/-- Number of header lines in a file. -/
def headerCount : List Line → Nat
  | [] => 0
  | Line.header :: rest => headerCount rest + 1
  | Line.data _ :: rest => headerCount rest

/-- Number of data rows in a file. -/
def dataCount : List Line → Nat
  | [] => 0
  | Line.header :: rest => dataCount rest
  | Line.data _ :: rest => dataCount rest + 1

/-- Tracks whether a record write is still unflushed while scanning a
trace; returns false as soon as a second record write happens with the
previous one not yet flushed.  `close` flushes the handle's buffer, and
the header row is not a record. -/
def pendingAux : Bool → List Ev → Bool
  | _, [] => true
  | pending, Ev.write _ :: rest => !pending && pendingAux true rest
  | _, Ev.flush :: rest => pendingAux false rest
  | _, Ev.close :: rest => pendingAux false rest
  | pending, Ev.header :: rest => pendingAux pending rest

/-- The durability discipline claimed by the spec: every record write
is flushed before the next record write begins, so at any point at most
the record currently being written is unflushed. -/
def flushBetweenWrites (evs : List Ev) : Bool := pendingAux false evs

/-- Recogniser for traces that are a sequence of `write r, flush`
blocks, the shape of the monitoring loop's change writes. -/
def flushBlocksAux : Bool → List Ev → Bool
  | false, [] => true
  | true, [] => false
  | false, Ev.write _ :: rest => flushBlocksAux true rest
  | true, Ev.flush :: rest => flushBlocksAux false rest
  | _, _ => false

/-- A trace consisting of `write r, flush` pairs: each record write is
immediately followed by its flush. -/
def isFlushBlocks (evs : List Ev) : Bool := flushBlocksAux false evs

/-- The uuids of the selected controls are pairwise distinct (the spec
guarantees ids are unique within a session). -/
def distinctUuids (cs : List Control) : Prop := List.Nodup (cs.map Control.uuid)

/-- The logging invariant of claim C10: every entity with a stored
last-known state has a durably written row for it, and the stored state
equals the state column of the most recent row written for that
entity. -/
def Inv (st : Table) (evs : List Ev) : Prop :=
  ∀ u s, tableGet st u = some s →
    ∃ r, (writesFor u evs).getLast? = some r ∧ r.state = s ∧ r.uuid = u

/-! ## Concrete instances used to evaluate the theorems -/

/-- A concrete selected control. -/
def ctrlA : Control :=
  { uuid := "uuid-a", name := "Lampara", type_readable := "Interruptor",
    room := some "Salon" }

/-- A second concrete selected control, with a distinct uuid and no
room. -/
def ctrlB : Control :=
  { uuid := "uuid-b", name := "Persiana", type_readable := "Persiana/Estor",
    room := none }

/-- A single-tick fetch oracle that always succeeds with state on. -/
def fOn : String → Option String := fun _ => some "on"

/-- A single-tick fetch oracle on which every fetch is unavailable. -/
def fNone : String → Option String := fun _ => none

/-- A session fetch oracle that always succeeds with state on. -/
def fetchAlwaysOn : Nat → String → Option String := fun _ _ => some "on"

/-- A session fetch oracle: on at the baseline, off on every later
tick. -/
def fetchOnThenOff : Nat → String → Option String :=
  fun t _ => if t = 0 then some "on" else some "off"

/-- Baseline timestamp oracle. -/
def btime0 : Nat → String := fun i => "B" ++ toString i

/-- Tick timestamp oracle. -/
def ttime0 : Nat → String := fun t => "T" ++ toString t

/-- A cancellation flag already observed false at the first boundary
check: the loop runs zero ticks. -/
def activeNever : Nat → Bool := fun _ => false

/-- A cancellation flag observed true at the first boundary check and
false at the second: the loop runs exactly one complete tick. -/
def activeOneTick : Nat → Bool := fun t => decide (t ≤ 1)

/-! ## Lemmas about the table -/

theorem tableGet_nil (u : String) : tableGet [] u = none := rfl

theorem tableGet_tableSet_self (t : Table) (k v : String) :
    tableGet (tableSet t k v) k = some v := by
  induction t with
  | nil => simp [tableSet, tableGet]
  | cons hd rest ih =>
      obtain ⟨k2, v2⟩ := hd
      by_cases h : k2 = k
      · subst h
        simp [tableSet, tableGet]
      · simp [tableSet, tableGet, h, ih]

theorem tableGet_tableSet_ne (t : Table) (k v u : String) (h : k ≠ u) :
    tableGet (tableSet t k v) u = tableGet t u := by
  induction t with
  | nil => simp [tableSet, tableGet, h]
  | cons hd rest ih =>
      obtain ⟨k2, v2⟩ := hd
      by_cases h2 : k2 = k
      · subst h2
        simp [tableSet, tableGet, h]
      · simp [tableSet, tableGet, h2, ih]

/-! ## Lemmas about trace observations -/

theorem linesOf_append (a b : List Ev) :
    linesOf (a ++ b) = linesOf a ++ linesOf b := by
  induction a with
  | nil => rfl
  | cons e rest ih => cases e <;> simp [linesOf, ih]

theorem writesFor_append (u : String) (a b : List Ev) :
    writesFor u (a ++ b) = writesFor u a ++ writesFor u b := by
  induction a with
  | nil => rfl
  | cons e rest ih =>
      cases e with
      | write r =>
          by_cases h : r.uuid = u <;> simp [writesFor, h, ih]
      | header => simp [writesFor, ih]
      | flush => simp [writesFor, ih]
      | close => simp [writesFor, ih]

theorem writeCount_append (a b : List Ev) :
    writeCount (a ++ b) = writeCount a + writeCount b := by
  induction a with
  | nil => simp [writeCount]
  | cons e rest ih => cases e <;> simp [writeCount, ih] <;> omega

theorem flushCount_append (a b : List Ev) :
    flushCount (a ++ b) = flushCount a + flushCount b := by
  induction a with
  | nil => simp [flushCount]
  | cons e rest ih => cases e <;> simp [flushCount, ih] <;> omega

theorem closeCount_append (a b : List Ev) :
    closeCount (a ++ b) = closeCount a + closeCount b := by
  induction a with
  | nil => simp [closeCount]
  | cons e rest ih => cases e <;> simp [closeCount, ih] <;> omega

theorem headerEvCount_append (a b : List Ev) :
    headerEvCount (a ++ b) = headerEvCount a + headerEvCount b := by
  induction a with
  | nil => simp [headerEvCount]
  | cons e rest ih => cases e <;> simp [headerEvCount, ih] <;> omega

theorem headerCount_append (a b : List Line) :
    headerCount (a ++ b) = headerCount a + headerCount b := by
  induction a with
  | nil => simp [headerCount]
  | cons l rest ih => cases l <;> simp [headerCount, ih] <;> omega

theorem dataCount_append (a b : List Line) :
    dataCount (a ++ b) = dataCount a + dataCount b := by
  induction a with
  | nil => simp [dataCount]
  | cons l rest ih => cases l <;> simp [dataCount, ih] <;> omega

theorem headerCount_linesOf (evs : List Ev) :
    headerCount (linesOf evs) = headerEvCount evs := by
  induction evs with
  | nil => rfl
  | cons e rest ih => cases e <;> simp [linesOf, headerCount, headerEvCount, ih]

theorem dataCount_linesOf (evs : List Ev) :
    dataCount (linesOf evs) = writeCount evs := by
  induction evs with
  | nil => rfl
  | cons e rest ih => cases e <;> simp [linesOf, dataCount, writeCount, ih]

theorem getLast?_append_single {α : Type} (l : List α) (a : α) :
    (l ++ [a]).getLast? = some a := by
  induction l with
  | nil => rfl
  | cons x rest ih =>
      cases rest with
      | nil => rfl
      | cons y ys =>
          rw [List.cons_append, List.cons_append, List.getLast?_cons_cons,
            ← List.cons_append]
          exact ih

/-! ## Characterisation of one control within one tick -/

theorem tickControl_fetch_none (f : String → Option String) (ts : String)
    (c : Control) (st : Table) (ch : Nat) (h : f c.uuid = none) :
    tickControl f ts c st ch = (st, [], ch) := by
  simp [tickControl, h]

theorem tickControl_fetch_diff (f : String → Option String) (ts : String)
    (c : Control) (st : Table) (ch : Nat) (new : String)
    (h : f c.uuid = some new) (hne : some new ≠ tableGet st c.uuid) :
    tickControl f ts c st ch =
      (tableSet st c.uuid new, [Ev.write (mkRow ts c new), Ev.flush], ch + 1) := by
  simp only [tickControl, h]
  rw [if_pos hne]

theorem tickControl_fetch_same (f : String → Option String) (ts : String)
    (c : Control) (st : Table) (ch : Nat) (new : String)
    (h : f c.uuid = some new) (heq : some new = tableGet st c.uuid) :
    tickControl f ts c st ch = (st, [], ch) := by
  simp only [tickControl, h]
  rw [if_neg (by simp [heq])]

theorem tickControl_events_cases (f : String → Option String) (ts : String)
    (c : Control) (st : Table) (ch : Nat) :
    (tickControl f ts c st ch).2.1 = [] ∨
      ∃ r, (tickControl f ts c st ch).2.1 = [Ev.write r, Ev.flush] := by
  cases h : f c.uuid with
  | none => left; rw [tickControl_fetch_none f ts c st ch h]
  | some new =>
      by_cases heq : some new = tableGet st c.uuid
      · left; rw [tickControl_fetch_same f ts c st ch new h heq]
      · right
        exact ⟨mkRow ts c new, by rw [tickControl_fetch_diff f ts c st ch new h heq]⟩

/-- The events of one control's processing contain no header and no
close, and at most the write-flush pair. -/
theorem tickControl_counts (f : String → Option String) (ts : String)
    (c : Control) (st : Table) (ch : Nat) :
    closeCount (tickControl f ts c st ch).2.1 = 0 ∧
      headerEvCount (tickControl f ts c st ch).2.1 = 0 := by
  rcases tickControl_events_cases f ts c st ch with h | ⟨r, h⟩ <;>
    simp [h, closeCount, headerEvCount]

/-- The change counter advances by exactly the number of rows written
(source line 539 pairs `changes_count += 1` with the row write). -/
theorem tickControl_changes (f : String → Option String) (ts : String)
    (c : Control) (st : Table) (ch : Nat) :
    (tickControl f ts c st ch).2.2 = ch + writeCount (tickControl f ts c st ch).2.1 := by
  cases h : f c.uuid with
  | none => rw [tickControl_fetch_none f ts c st ch h]; simp [writeCount]
  | some new =>
      by_cases heq : some new = tableGet st c.uuid
      · rw [tickControl_fetch_same f ts c st ch new h heq]; simp [writeCount]
      · rw [tickControl_fetch_diff f ts c st ch new h heq]; simp [writeCount]

theorem tickControls_counts (f : String → Option String) (ts : String) :
    ∀ (cs : List Control) (st : Table) (ch : Nat),
      closeCount (tickControls f ts cs st ch).2.1 = 0 ∧
        headerEvCount (tickControls f ts cs st ch).2.1 = 0
  | [], st, ch => by simp [tickControls, closeCount, headerEvCount]
  | c :: rest, st, ch => by
      have hc := tickControl_counts f ts c st ch
      have ih := tickControls_counts f ts rest (tickControl f ts c st ch).1
        (tickControl f ts c st ch).2.2
      simp [tickControls, closeCount_append, headerEvCount_append, hc.1, hc.2,
        ih.1, ih.2]

theorem tickControls_changes (f : String → Option String) (ts : String) :
    ∀ (cs : List Control) (st : Table) (ch : Nat),
      (tickControls f ts cs st ch).2.2 =
        ch + writeCount (tickControls f ts cs st ch).2.1
  | [], st, ch => by simp [tickControls, writeCount]
  | c :: rest, st, ch => by
      have hc := tickControl_changes f ts c st ch
      have ih := tickControls_changes f ts rest (tickControl f ts c st ch).1
        (tickControl f ts c st ch).2.2
      simp only [tickControls, writeCount_append]
      omega

theorem monitor_loopAux_counts (fetch : Nat → String → Option String)
    (ttime : Nat → String) (active : Nat → Bool) (cs : List Control) :
    ∀ (fuel t : Nat) (st : Table) (checks changes : Nat),
      closeCount (monitor_loopAux fetch ttime active cs fuel t st checks changes).2.1 = 0 ∧
        headerEvCount (monitor_loopAux fetch ttime active cs fuel t st checks changes).2.1 = 0
  | 0, t, st, checks, changes => by simp [monitor_loopAux, closeCount, headerEvCount]
  | fuel + 1, t, st, checks, changes => by
      by_cases h : active t
      · have htc := tickControls_counts (fetch t) (ttime t) cs st changes
        have ih := monitor_loopAux_counts fetch ttime active cs fuel (t + 1)
          (tickControls (fetch t) (ttime t) cs st changes).1 (checks + 1)
          (tickControls (fetch t) (ttime t) cs st changes).2.2
        simp [monitor_loopAux, h, closeCount_append, headerEvCount_append,
          htc.1, htc.2, ih.1, ih.2]
      · simp [monitor_loopAux, h, closeCount, headerEvCount]

theorem monitor_loopAux_changes (fetch : Nat → String → Option String)
    (ttime : Nat → String) (active : Nat → Bool) (cs : List Control) :
    ∀ (fuel t : Nat) (st : Table) (checks changes : Nat),
      (monitor_loopAux fetch ttime active cs fuel t st checks changes).2.2.2 =
        changes + writeCount (monitor_loopAux fetch ttime active cs fuel t st checks changes).2.1
  | 0, t, st, checks, changes => by simp [monitor_loopAux, writeCount]
  | fuel + 1, t, st, checks, changes => by
      by_cases h : active t
      · have htc := tickControls_changes (fetch t) (ttime t) cs st changes
        have ih := monitor_loopAux_changes fetch ttime active cs fuel (t + 1)
          (tickControls (fetch t) (ttime t) cs st changes).1 (checks + 1)
          (tickControls (fetch t) (ttime t) cs st changes).2.2
        simp only [monitor_loopAux, h, if_true, writeCount_append]
        omega
      · simp [monitor_loopAux, h, writeCount]

theorem baselinePass_counts (f : String → Option String) (b : Nat → String) :
    ∀ (cs : List Control) (i : Nat) (st : Table),
      closeCount (baselinePass f b cs i st).2 = 0 ∧
        flushCount (baselinePass f b cs i st).2 = 0 ∧
        headerEvCount (baselinePass f b cs i st).2 = 0
  | [], i, st => by simp [baselinePass, closeCount, flushCount, headerEvCount]
  | c :: rest, i, st => by
      cases h : f c.uuid with
      | none =>
          have ih := baselinePass_counts f b rest (i + 1) st
          simpa [baselinePass, h] using ih
      | some s =>
          have ih := baselinePass_counts f b rest (i + 1) (tableSet st c.uuid s)
          simp [baselinePass, h, closeCount, flushCount, headerEvCount, ih.1,
            ih.2.1, ih.2.2]

/-! ## Locality: a control's processing only touches its own uuid -/

theorem tickControl_locality (f : String → Option String) (ts : String)
    (c : Control) (st : Table) (ch : Nat) (u : String) (hcu : c.uuid ≠ u) :
    writesFor u (tickControl f ts c st ch).2.1 = [] ∧
      tableGet (tickControl f ts c st ch).1 u = tableGet st u := by
  cases h : f c.uuid with
  | none => rw [tickControl_fetch_none f ts c st ch h]; simp [writesFor]
  | some new =>
      by_cases heq : some new = tableGet st c.uuid
      · rw [tickControl_fetch_same f ts c st ch new h heq]; simp [writesFor]
      · rw [tickControl_fetch_diff f ts c st ch new h heq]
        refine ⟨?_, tableGet_tableSet_ne st c.uuid new u hcu⟩
        simp [writesFor, mkRow, hcu]

theorem tickControls_locality (f : String → Option String) (ts : String) :
    ∀ (cs : List Control) (st : Table) (ch : Nat) (u : String),
      (∀ c ∈ cs, c.uuid ≠ u) →
      writesFor u (tickControls f ts cs st ch).2.1 = [] ∧
        tableGet (tickControls f ts cs st ch).1 u = tableGet st u
  | [], st, ch, u, _ => by simp [tickControls, writesFor]
  | c :: rest, st, ch, u, h => by
      have hcu : c.uuid ≠ u := h c (by simp)
      have hrest : ∀ c2 ∈ rest, c2.uuid ≠ u := fun c2 hc2 => h c2 (by simp [hc2])
      have hloc := tickControl_locality f ts c st ch u hcu
      have ih := tickControls_locality f ts rest (tickControl f ts c st ch).1
        (tickControl f ts c st ch).2.2 u hrest
      simp only [tickControls, writesFor_append]
      exact ⟨by simp [hloc.1, ih.1], by rw [ih.2, hloc.2]⟩

theorem baselinePass_locality (f : String → Option String) (b : Nat → String) :
    ∀ (cs : List Control) (i : Nat) (st : Table) (u : String),
      (∀ c ∈ cs, c.uuid ≠ u) →
      writesFor u (baselinePass f b cs i st).2 = [] ∧
        tableGet (baselinePass f b cs i st).1 u = tableGet st u
  | [], _, st, u, _ => by simp [baselinePass, writesFor]
  | c :: rest, i, st, u, h => by
      have hcu : c.uuid ≠ u := h c (by simp)
      have hrest : ∀ c2 ∈ rest, c2.uuid ≠ u := fun c2 hc2 => h c2 (by simp [hc2])
      cases hf : f c.uuid with
      | none =>
          have ih := baselinePass_locality f b rest (i + 1) st u hrest
          simpa [baselinePass, hf] using ih
      | some s =>
          have ih := baselinePass_locality f b rest (i + 1) (tableSet st c.uuid s) u hrest
          simp only [baselinePass, hf]
          refine ⟨?_, ?_⟩
          · simp [writesFor, mkRow, hcu, ih.1]
          · rw [ih.2, tableGet_tableSet_ne st c.uuid s u hcu]

theorem tickControls_cons (f : String → Option String) (ts : String) (a : Control)
    (rest : List Control) (st : Table) (ch : Nat) :
    tickControls f ts (a :: rest) st ch =
      ((tickControls f ts rest (tickControl f ts a st ch).1
          (tickControl f ts a st ch).2.2).1,
        (tickControl f ts a st ch).2.1 ++
          (tickControls f ts rest (tickControl f ts a st ch).1
            (tickControl f ts a st ch).2.2).2.1,
        (tickControls f ts rest (tickControl f ts a st ch).1
          (tickControl f ts a st ch).2.2).2.2) := rfl

theorem baselinePass_cons_none (f : String → Option String) (b : Nat → String)
    (c : Control) (rest : List Control) (i : Nat) (st : Table)
    (hf : f c.uuid = none) :
    baselinePass f b (c :: rest) i st = baselinePass f b rest (i + 1) st := by
  simp [baselinePass, hf]

theorem baselinePass_cons_some (f : String → Option String) (b : Nat → String)
    (c : Control) (rest : List Control) (i : Nat) (st : Table) (s : String)
    (hf : f c.uuid = some s) :
    baselinePass f b (c :: rest) i st =
      ((baselinePass f b rest (i + 1) (tableSet st c.uuid s)).1,
        Ev.write (mkRow (b i) c s) ::
          (baselinePass f b rest (i + 1) (tableSet st c.uuid s)).2) := by
  simp [baselinePass, hf]

/-! ## Flush-block structure of the loop events -/

theorem flushBlocksAux_append (b : List Ev) (hb : flushBlocksAux false b = true) :
    ∀ (a : List Ev) (s : Bool), flushBlocksAux s a = true →
      flushBlocksAux s (a ++ b) = true
  | [], s, ha => by
      cases s with
      | false => simpa using hb
      | true => simp [flushBlocksAux] at ha
  | e :: rest, s, ha => by
      cases s with
      | false =>
          cases e with
          | write r =>
              have ih := flushBlocksAux_append b hb rest true
                (by simpa [flushBlocksAux] using ha)
              simpa [flushBlocksAux] using ih
          | header => simp [flushBlocksAux] at ha
          | flush => simp [flushBlocksAux] at ha
          | close => simp [flushBlocksAux] at ha
      | true =>
          cases e with
          | flush =>
              have ih := flushBlocksAux_append b hb rest false
                (by simpa [flushBlocksAux] using ha)
              simpa [flushBlocksAux] using ih
          | header => simp [flushBlocksAux] at ha
          | write r => simp [flushBlocksAux] at ha
          | close => simp [flushBlocksAux] at ha

theorem isFlushBlocks_append (a b : List Ev) (ha : isFlushBlocks a = true)
    (hb : isFlushBlocks b = true) : isFlushBlocks (a ++ b) = true :=
  flushBlocksAux_append b hb a false ha

theorem tickControl_isFlushBlocks (f : String → Option String) (ts : String)
    (c : Control) (st : Table) (ch : Nat) :
    isFlushBlocks (tickControl f ts c st ch).2.1 = true := by
  rcases tickControl_events_cases f ts c st ch with h | ⟨r, h⟩ <;>
    simp [h, isFlushBlocks, flushBlocksAux]

theorem tickControls_isFlushBlocks (f : String → Option String) (ts : String) :
    ∀ (cs : List Control) (st : Table) (ch : Nat),
      isFlushBlocks (tickControls f ts cs st ch).2.1 = true
  | [], st, ch => by simp [tickControls, isFlushBlocks, flushBlocksAux]
  | c :: rest, st, ch => by
      have h1 := tickControl_isFlushBlocks f ts c st ch
      have ih := tickControls_isFlushBlocks f ts rest (tickControl f ts c st ch).1
        (tickControl f ts c st ch).2.2
      simp only [tickControls]
      exact isFlushBlocks_append _ _ h1 ih

theorem monitor_loopAux_isFlushBlocks (fetch : Nat → String → Option String)
    (ttime : Nat → String) (active : Nat → Bool) (cs : List Control) :
    ∀ (fuel t : Nat) (st : Table) (checks changes : Nat),
      isFlushBlocks (monitor_loopAux fetch ttime active cs fuel t st checks changes).2.1 = true
  | 0, t, st, checks, changes => by simp [monitor_loopAux, isFlushBlocks, flushBlocksAux]
  | fuel + 1, t, st, checks, changes => by
      by_cases h : active t
      · have h1 := tickControls_isFlushBlocks (fetch t) (ttime t) cs st changes
        have ih := monitor_loopAux_isFlushBlocks fetch ttime active cs fuel (t + 1)
          (tickControls (fetch t) (ttime t) cs st changes).1 (checks + 1)
          (tickControls (fetch t) (ttime t) cs st changes).2.2
        simp only [monitor_loopAux, h, if_true]
        exact isFlushBlocks_append _ _ h1 ih
      · simp [monitor_loopAux, h, isFlushBlocks, flushBlocksAux]

/-! ## The loop runs exactly the ticks whose boundary check read true -/

theorem runTicksAux_checks (fetch : Nat → String → Option String)
    (ttime : Nat → String) (cs : List Control) :
    ∀ (n t : Nat) (st : Table) (checks changes : Nat),
      (runTicksAux fetch ttime cs n t st checks changes).2.2.1 = checks + n
  | 0, t, st, checks, changes => by simp [runTicksAux]
  | n + 1, t, st, checks, changes => by
      have ih := runTicksAux_checks fetch ttime cs n (t + 1)
        (tickControls (fetch t) (ttime t) cs st changes).1 (checks + 1)
        (tickControls (fetch t) (ttime t) cs st changes).2.2
      simp only [runTicksAux]
      omega

theorem monitor_loopAux_stop (fetch : Nat → String → Option String)
    (ttime : Nat → String) (active : Nat → Bool) (cs : List Control) :
    ∀ (n fuel t : Nat) (st : Table) (checks changes : Nat),
      (∀ u, t ≤ u → u < t + n → active u = true) →
      active (t + n) = false → n < fuel →
      monitor_loopAux fetch ttime active cs fuel t st checks changes =
        runTicksAux fetch ttime cs n t st checks changes
  | 0, fuel, t, st, checks, changes, _, hfalse, hfuel => by
      cases fuel with
      | zero => omega
      | succ f =>
          have hat : active t = false := by simpa using hfalse
          simp [monitor_loopAux, runTicksAux, hat]
  | n + 1, fuel, t, st, checks, changes, htrue, hfalse, hfuel => by
      cases fuel with
      | zero => omega
      | succ f =>
          have hat : active t = true := htrue t le_rfl (by omega)
          have ih := monitor_loopAux_stop fetch ttime active cs n f (t + 1)
            (tickControls (fetch t) (ttime t) cs st changes).1 (checks + 1)
            (tickControls (fetch t) (ttime t) cs st changes).2.2
            (fun u hu1 hu2 => htrue u (by omega) (by omega))
            (by have heq : t + 1 + n = t + (n + 1) := by omega
                rw [heq]; exact hfalse)
            (by omega)
          simp only [monitor_loopAux, runTicksAux, hat, if_true]
          rw [ih]

/-! ## Preservation of the logging invariant -/

theorem Inv_empty_table (evs : List Ev) : Inv [] evs := by
  intro u s hget
  simp [tableGet] at hget

theorem writesFor_single_write (u : String) (r : Row) :
    writesFor u [Ev.write r] = if r.uuid = u then [r] else [] := by
  by_cases h : r.uuid = u <;> simp [writesFor, h]

theorem Inv_of_writesFor_eq (st : Table) (evs evs2 : List Ev)
    (hw : ∀ u, writesFor u evs2 = writesFor u evs) (h : Inv st evs) :
    Inv st evs2 := by
  intro u s hget
  rw [hw u]
  exact h u s hget

theorem Inv_set_write (st : Table) (evs : List Ev) (r : Row) (h : Inv st evs) :
    Inv (tableSet st r.uuid r.state) (evs ++ [Ev.write r]) := by
  intro u s hget
  by_cases hu : u = r.uuid
  · subst hu
    rw [tableGet_tableSet_self] at hget
    injection hget with hs
    refine ⟨r, ?_, hs, rfl⟩
    rw [writesFor_append, writesFor_single_write, if_pos rfl]
    exact getLast?_append_single _ r
  · rw [tableGet_tableSet_ne st r.uuid r.state u (fun hh => hu hh.symm)] at hget
    obtain ⟨r2, hlast, hstate, huid⟩ := h u s hget
    refine ⟨r2, ?_, hstate, huid⟩
    rw [writesFor_append, writesFor_single_write, if_neg (fun hh => hu hh.symm)]
    simpa using hlast

theorem Inv_tickControl (f : String → Option String) (ts : String) (c : Control)
    (st : Table) (ch : Nat) (evs : List Ev) (h : Inv st evs) :
    Inv (tickControl f ts c st ch).1 (evs ++ (tickControl f ts c st ch).2.1) := by
  cases hf : f c.uuid with
  | none =>
      rw [tickControl_fetch_none f ts c st ch hf]
      simpa using h
  | some new =>
      by_cases heq : some new = tableGet st c.uuid
      · rw [tickControl_fetch_same f ts c st ch new hf heq]
        simpa using h
      · rw [tickControl_fetch_diff f ts c st ch new hf heq]
        have h1 := Inv_set_write st evs (mkRow ts c new) h
        apply Inv_of_writesFor_eq _ (evs ++ [Ev.write (mkRow ts c new)]) _ ?_ h1
        intro u
        rw [show evs ++ [Ev.write (mkRow ts c new), Ev.flush] =
            (evs ++ [Ev.write (mkRow ts c new)]) ++ [Ev.flush] by simp]
        rw [writesFor_append _ _ [Ev.flush]]
        simp [writesFor]

theorem Inv_tickControls (f : String → Option String) (ts : String) :
    ∀ (cs : List Control) (st : Table) (ch : Nat) (evs : List Ev), Inv st evs →
      Inv (tickControls f ts cs st ch).1 (evs ++ (tickControls f ts cs st ch).2.1)
  | [], st, ch, evs, h => by simpa [tickControls] using h
  | c :: rest, st, ch, evs, h => by
      have h1 := Inv_tickControl f ts c st ch evs h
      have ih := Inv_tickControls f ts rest (tickControl f ts c st ch).1
        (tickControl f ts c st ch).2.2 (evs ++ (tickControl f ts c st ch).2.1) h1
      simp only [tickControls]
      rw [← List.append_assoc]
      exact ih

theorem Inv_monitor_loopAux (fetch : Nat → String → Option String)
    (ttime : Nat → String) (active : Nat → Bool) (cs : List Control) :
    ∀ (fuel t : Nat) (st : Table) (checks changes : Nat) (evs : List Ev), Inv st evs →
      Inv (monitor_loopAux fetch ttime active cs fuel t st checks changes).1
        (evs ++ (monitor_loopAux fetch ttime active cs fuel t st checks changes).2.1)
  | 0, t, st, checks, changes, evs, h => by simpa [monitor_loopAux] using h
  | fuel + 1, t, st, checks, changes, evs, h => by
      by_cases hat : active t
      · have h1 := Inv_tickControls (fetch t) (ttime t) cs st changes evs h
        have ih := Inv_monitor_loopAux fetch ttime active cs fuel (t + 1)
          (tickControls (fetch t) (ttime t) cs st changes).1 (checks + 1)
          (tickControls (fetch t) (ttime t) cs st changes).2.2
          (evs ++ (tickControls (fetch t) (ttime t) cs st changes).2.1) h1
        simp only [monitor_loopAux, hat, if_true]
        rw [← List.append_assoc]
        exact ih
      · simp only [monitor_loopAux, hat, if_false]
        simpa using h

theorem Inv_baselinePass (f : String → Option String) (b : Nat → String) :
    ∀ (cs : List Control) (i : Nat) (st : Table) (evs : List Ev), Inv st evs →
      Inv (baselinePass f b cs i st).1 (evs ++ (baselinePass f b cs i st).2)
  | [], _, st, evs, h => by simpa [baselinePass] using h
  | c :: rest, i, st, evs, h => by
      cases hf : f c.uuid with
      | none =>
          have ih := Inv_baselinePass f b rest (i + 1) st evs h
          simpa [baselinePass, hf] using ih
      | some s =>
          have h1 := Inv_set_write st evs (mkRow (b i) c s) h
          have ih := Inv_baselinePass f b rest (i + 1) (tableSet st c.uuid s)
            (evs ++ [Ev.write (mkRow (b i) c s)]) h1
          simp only [baselinePass, hf]
          rw [show evs ++ (Ev.write (mkRow (b i) c s) ::
              (baselinePass f b rest (i + 1) (tableSet st c.uuid s)).2) =
              (evs ++ [Ev.write (mkRow (b i) c s)]) ++
              (baselinePass f b rest (i + 1) (tableSet st c.uuid s)).2 by simp]
          exact ih

/-! ## Claim C7 -/

/-- C7: starting a session with an empty entity list fails synchronously
with `NoEntitiesSelected` and the session never begins: the session
result is the error (the early return at source lines 459-461 precedes
the `open` call), the destination file is neither created nor modified,
and no file event — no header, no record, no open, no loop activity —
ever happens. -/
theorem C7_empty_selection (existing : Option (List Line))
    (fetch : Nat → String → Option String) (btime ttime : Nat → String)
    (active : Nat → Bool) (fuel : Nat) :
    start_group_monitoring existing fetch btime ttime active fuel [] =
      Except.error StartError.NoEntitiesSelected ∧
    sessionFinalFile existing
      (start_group_monitoring existing fetch btime ttime active fuel []) = existing ∧
    sessionEvents (start_group_monitoring existing fetch btime ttime active fuel []) = [] := by
  refine ⟨rfl, ?_, ?_⟩ <;> simp [start_group_monitoring, sessionFinalFile, sessionEvents]

/-! ## Claim C9 -/

/-- C9: `get_control_state` is total (the bare `except:` catches every
exception): it returns `some` exactly for a completed response that
`raise_for_status` lets through — the requests library raises exactly
for client- and server-error statuses 400-599 — whose JSON body is an
object carrying an `LL` object with a `value` field, and then returns
the Python string form of that value; and it returns `None` for a
transport error, a timeout, a non-success HTTP status in 400-599, and
a malformed payload. -/
theorem C9_fetch_characterization (resp : HttpResult) (s : String) :
    (get_control_state resp = some s ↔
      ∃ status fields inner v,
        resp = HttpResult.response status (Body.json (Json.obj fields)) ∧
        (status < 400 ∨ 600 ≤ status) ∧
        jlookup fields "LL" = some (Json.obj inner) ∧
        jlookup inner "value" = some v ∧
        s = pyStr v) ∧
    get_control_state HttpResult.transportError = none ∧
    get_control_state HttpResult.timeout = none ∧
    (∀ status body, 400 ≤ status → status < 600 →
      get_control_state (HttpResult.response status body) = none) ∧
    (∀ status, get_control_state (HttpResult.response status Body.malformed) = none) := by
  refine ⟨⟨?_, ?_⟩, rfl, rfl, ?_, ?_⟩
  · intro h
    cases resp with
    | transportError => simp [get_control_state] at h
    | timeout => simp [get_control_state] at h
    | response status body =>
        by_cases hst : 400 ≤ status ∧ status < 600
        · simp [get_control_state, hst] at h
        · cases body with
          | malformed => simp [get_control_state, hst] at h
          | json data =>
              cases data with
              | obj fields =>
                  cases hLL : jlookup fields "LL" with
                  | none => simp [get_control_state, hst, hLL] at h
                  | some w =>
                      cases w with
                      | obj inner =>
                          cases hv : jlookup inner "value" with
                          | none => simp [get_control_state, hst, hLL, hv] at h
                          | some v =>
                              simp [get_control_state, hst, hLL, hv] at h
                              exact ⟨status, fields, inner, v, rfl, by omega, hLL,
                                hv, h.symm⟩
                      | null => simp [get_control_state, hst, hLL] at h
                      | bool bb => simp [get_control_state, hst, hLL] at h
                      | num nn => simp [get_control_state, hst, hLL] at h
                      | str ss => simp [get_control_state, hst, hLL] at h
                      | arr es => simp [get_control_state, hst, hLL] at h
              | null => simp [get_control_state, hst] at h
              | bool bb => simp [get_control_state, hst] at h
              | num nn => simp [get_control_state, hst] at h
              | str ss => simp [get_control_state, hst] at h
              | arr es => simp [get_control_state, hst] at h
  · rintro ⟨status, fields, inner, v, rfl, hor, h1, h2, rfl⟩
    have hn : ¬(400 ≤ status ∧ status < 600) := by omega
    simp [get_control_state, h1, h2, hn]
  · intro status body h4 h6
    simp [get_control_state, h4, h6]
  · intro status
    by_cases hst : 400 ≤ status ∧ status < 600 <;> simp [get_control_state, hst]

/-- Witness: C9 evaluated on a concrete successful Loxone response
payload, and on a concrete 404 whose well-formed body is still
discarded because `raise_for_status` raises first. -/
theorem C9_witness :
    get_control_state (HttpResult.response 200 (Body.json (Json.obj
      [("LL", Json.obj [("control", Json.str "x"), ("value", Json.str "22.5"),
        ("Code", Json.str "200")])]))) = some "22.5" ∧
    get_control_state (HttpResult.response 404 (Body.json (Json.obj
      [("LL", Json.obj [("value", Json.str "22.5")])]))) = none :=
  ⟨(C9_fetch_characterization _ "22.5").1.mpr
      ⟨200, _, _, Json.str "22.5", rfl, by omega, rfl, rfl, rfl⟩,
    (C9_fetch_characterization (HttpResult.response 404 (Body.json (Json.obj
      [("LL", Json.obj [("value", Json.str "22.5")])]))) "22.5").2.2.2.1 404 _
      (by omega) (by omega)⟩

/-! ## Unfolding a successful session -/

theorem start_ok (existing : Option (List Line))
    (fetch : Nat → String → Option String) (btime ttime : Nat → String)
    (active : Nat → Bool) (fuel : Nat) (cs : List Control) (hcs : cs ≠ []) :
    start_group_monitoring existing fetch btime ttime active fuel cs = Except.ok
      { events := headerEvents existing ++ (baselineOf fetch btime cs).2 ++ [Ev.flush] ++
          (loopOf fetch btime ttime active fuel cs).2.1 ++ [Ev.close]
        finalFile := (existing.getD []) ++ linesOf (headerEvents existing ++
          (baselineOf fetch btime cs).2 ++ [Ev.flush] ++
          (loopOf fetch btime ttime active fuel cs).2.1 ++ [Ev.close])
        table := (loopOf fetch btime ttime active fuel cs).1
        checks := (loopOf fetch btime ttime active fuel cs).2.2.1
        changes := (loopOf fetch btime ttime active fuel cs).2.2.2
        finalReport := some ((loopOf fetch btime ttime active fuel cs).2.2.1,
          (loopOf fetch btime ttime active fuel cs).2.2.2)
        returned := none } := by
  simp [start_group_monitoring, hcs]

theorem headerEvCount_headerEvents (existing : Option (List Line)) :
    headerEvCount (headerEvents existing) = if existing = none then 1 else 0 := by
  by_cases h : existing = none <;> simp [headerEvents, h, headerEvCount]

theorem closeCount_headerEvents (existing : Option (List Line)) :
    closeCount (headerEvents existing) = 0 := by
  by_cases h : existing = none <;> simp [headerEvents, h, closeCount]

theorem writesFor_headerEvents (existing : Option (List Line)) (u : String) :
    writesFor u (headerEvents existing) = [] := by
  by_cases h : existing = none <;> simp [headerEvents, h, writesFor]

theorem dataCount_of_no_header (ds : List Line) (h : headerCount ds = 0) :
    dataCount ds = ds.length := by
  induction ds with
  | nil => rfl
  | cons l rest ih =>
      cases l with
      | header => simp [headerCount] at h
      | data r =>
          simp only [dataCount, List.length_cons]
          rw [ih (by simpa [headerCount] using h)]

/-! ## Claim C3 -/

/-- C3: opening the change log is idempotent with respect to the
header.  When the destination did not exist, the final file is exactly
one header line followed by data rows only, and its data rows are
exactly the records the session wrote; when the destination already
held a header and `k` data rows, the final file still holds exactly one
header, its data-row count is `k` plus the records written by the
session, and the prior content is preserved unchanged as a prefix. -/
theorem C3_header_idempotent (existing : Option (List Line))
    (fetch : Nat → String → Option String) (btime ttime : Nat → String)
    (active : Nat → Bool) (fuel : Nat) (cs : List Control) (r : SessionResult)
    (h : start_group_monitoring existing fetch btime ttime active fuel cs = Except.ok r) :
    (existing = none →
      ∃ rest, r.finalFile = Line.header :: rest ∧ headerCount rest = 0 ∧
        dataCount r.finalFile = writeCount r.events) ∧
    (∀ ds, existing = some (Line.header :: ds) → headerCount ds = 0 →
      headerCount r.finalFile = 1 ∧
      dataCount r.finalFile = ds.length + writeCount r.events ∧
      ∃ tail, r.finalFile = (Line.header :: ds) ++ tail) := by
  have hcs : cs ≠ [] := by
    intro hceq
    subst hceq
    simp [start_group_monitoring] at h
  rw [start_ok existing fetch btime ttime active fuel cs hcs, Except.ok.injEq] at h
  subst h
  have hbh : headerEvCount (baselineOf fetch btime cs).2 = 0 :=
    (baselinePass_counts (fetch 0) btime cs 0 []).2.2
  have hlh : headerEvCount (loopOf fetch btime ttime active fuel cs).2.1 = 0 :=
    (monitor_loopAux_counts fetch ttime active cs fuel 1
      (baselineOf fetch btime cs).1 0 0).2
  constructor
  · intro hnone
    subst hnone
    refine ⟨linesOf ((baselineOf fetch btime cs).2 ++ [Ev.flush] ++
      (loopOf fetch btime ttime active fuel cs).2.1 ++ [Ev.close]), ?_, ?_, ?_⟩
    · simp [headerEvents, linesOf_append, linesOf]
    · simp [headerCount_linesOf, headerEvCount_append, hbh, hlh, headerEvCount]
    · simp [dataCount_append, dataCount_linesOf]
  · intro ds hsome h0
    subst hsome
    refine ⟨?_, ?_, ?_⟩
    · simp [headerEvents, headerCount_append, headerCount, h0, headerCount_linesOf,
        headerEvCount_append, hbh, hlh, headerEvCount]
    · rw [show (some (Line.header :: ds)).getD [] = Line.header :: ds from rfl]
      simp [dataCount_append, dataCount, dataCount_linesOf,
        dataCount_of_no_header ds h0]
    · refine ⟨linesOf ((baselineOf fetch btime cs).2 ++ [Ev.flush] ++
        (loopOf fetch btime ttime active fuel cs).2.1 ++ [Ev.close]), ?_⟩
      simp [headerEvents, linesOf_append, linesOf, List.append_assoc]

/-- Witness: C3 applied to a concrete session (one control, one
baseline record, one change record) appended to a destination that
already holds a header and one data row from a prior run. -/
theorem C3_witness :
    headerCount ((sessionFinalFile (some [Line.header, Line.data (mkRow "Z" ctrlA "0")])
      (start_group_monitoring (some [Line.header, Line.data (mkRow "Z" ctrlA "0")])
        fetchOnThenOff btime0 ttime0 activeOneTick 2 [ctrlA])).getD []) = 1 ∧
    dataCount ((sessionFinalFile (some [Line.header, Line.data (mkRow "Z" ctrlA "0")])
      (start_group_monitoring (some [Line.header, Line.data (mkRow "Z" ctrlA "0")])
        fetchOnThenOff btime0 ttime0 activeOneTick 2 [ctrlA])).getD []) =
      1 + writeCount (sessionEvents (start_group_monitoring
        (some [Line.header, Line.data (mkRow "Z" ctrlA "0")])
        fetchOnThenOff btime0 ttime0 activeOneTick 2 [ctrlA])) := by
  have hok := start_ok (some [Line.header, Line.data (mkRow "Z" ctrlA "0")])
    fetchOnThenOff btime0 ttime0 activeOneTick 2 [ctrlA] (by decide)
  have h := (C3_header_idempotent (some [Line.header, Line.data (mkRow "Z" ctrlA "0")])
    fetchOnThenOff btime0 ttime0 activeOneTick 2 [ctrlA] _ hok).2
    [Line.data (mkRow "Z" ctrlA "0")] rfl (by decide)
  rw [hok]
  simp only [sessionFinalFile, sessionEvents, Option.getD_some]
  exact ⟨h.1, by simpa using h.2.1⟩

/-! ## Claim C4 -/

/-- C4 as stated is false on the code: the baseline pass flushes once
after writing all the baseline records (source line 516), not after
each record.  Concretely, a session over two controls whose baseline
fetches both succeed writes two baseline records back to back with no
flush in between, so with the first record unflushed the second write
already begins. -/
theorem C4_counterexample :
    flushBetweenWrites (sessionEvents (start_group_monitoring none fetchAlwaysOn
      btime0 ttime0 activeNever 1 [ctrlA, ctrlB])) = false := by
  decide

/-- C4 amended: every change record written by the monitoring loop is
immediately followed by its flush (source lines 551-552), while the
baseline records are flushed by a single flush performed once after the
whole baseline pass (source line 516, and the baseline events
themselves contain no flush) — so during the loop at most the record
currently being written can be lost, but during the baseline pass the
whole unflushed batch can. -/
theorem C4_flush_amended (existing : Option (List Line))
    (fetch : Nat → String → Option String) (btime ttime : Nat → String)
    (active : Nat → Bool) (fuel : Nat) (cs : List Control) (r : SessionResult)
    (h : start_group_monitoring existing fetch btime ttime active fuel cs = Except.ok r) :
    r.events = headerEvents existing ++ (baselineOf fetch btime cs).2 ++ [Ev.flush] ++
      (loopOf fetch btime ttime active fuel cs).2.1 ++ [Ev.close] ∧
    isFlushBlocks (loopOf fetch btime ttime active fuel cs).2.1 = true ∧
    flushCount (baselineOf fetch btime cs).2 = 0 := by
  have hcs : cs ≠ [] := by
    intro hceq
    subst hceq
    simp [start_group_monitoring] at h
  rw [start_ok existing fetch btime ttime active fuel cs hcs, Except.ok.injEq] at h
  subst h
  refine ⟨rfl, ?_, ?_⟩
  · exact monitor_loopAux_isFlushBlocks fetch ttime active cs fuel 1
      (baselineOf fetch btime cs).1 0 0
  · exact (baselinePass_counts (fetch 0) btime cs 0 []).2.1

/-- Witness: C4's amended statement evaluated on a concrete one-control
session running one tick. -/
theorem C4_witness :
    isFlushBlocks (loopOf fetchOnThenOff btime0 ttime0 activeOneTick 2 [ctrlA]).2.1 = true ∧
    flushCount (baselineOf fetchOnThenOff btime0 [ctrlA]).2 = 0 := by
  have h := C4_flush_amended none fetchOnThenOff btime0 ttime0 activeOneTick 2 [ctrlA] _
    (start_ok none fetchOnThenOff btime0 ttime0 activeOneTick 2 [ctrlA] (by decide))
  exact ⟨h.2.1, h.2.2⟩

/-! ## Claim C5 -/

theorem baselineEvsFail_closeCount (f : String → Option String) (b : Nat → String) :
    ∀ (cs : List Control) (i k : Nat), closeCount (baselineEvsFail f b cs i k) = 0
  | [], _, _ => rfl
  | c :: rest, i, k => by
      cases hf : f c.uuid with
      | none =>
          have ih := baselineEvsFail_closeCount f b rest (i + 1) k
          simpa [baselineEvsFail, hf] using ih
      | some s =>
          cases k with
          | zero => simp [baselineEvsFail, hf, closeCount]
          | succ j =>
              have ih := baselineEvsFail_closeCount f b rest (i + 1) j
              simp [baselineEvsFail, hf, closeCount, ih]

/-- C5 as stated is false on the code: on the exit path where a
baseline `writerow` raises (a persistence write failure), the exception
reaches the handler at source lines 585-587, which prints the error and
clears the flag but never calls `csvfile.close()` — so on that exit
path the handle is closed zero times, not exactly once.  Concretely:
one selected control, an existing destination, and the first baseline
writerow raising. -/
theorem C5_counterexample :
    closeCount (start_group_monitoring_baselineWriteError (some [Line.header])
      fOn btime0 [ctrlA] 0) = 0 := by
  decide

/-- C5 amended: on a run in which no write raises and the cancellation
flag is observed false (normal cooperative stop, which is also the
operator-cancellation path), the handle is closed exactly once (source
line 564); but on the exit path where a baseline write raises, the
handle is never closed by the session code. -/
theorem C5_close_amended (existing : Option (List Line))
    (fetch : Nat → String → Option String) (btime ttime : Nat → String)
    (active : Nat → Bool) (fuel n : Nat) (cs : List Control) (r : SessionResult)
    (h : start_group_monitoring existing fetch btime ttime active fuel cs = Except.ok r)
    (htrue : ∀ u, 1 ≤ u → u ≤ n → active u = true)
    (hfalse : active (n + 1) = false) (hfuel : n < fuel) :
    closeCount r.events = 1 ∧
    (∀ (existing2 : Option (List Line)) (fetch2 : String → Option String)
       (btime2 : Nat → String) (cs2 : List Control) (failAt : Nat),
       closeCount (start_group_monitoring_baselineWriteError existing2 fetch2
         btime2 cs2 failAt) = 0) := by
  have hcs : cs ≠ [] := by
    intro hceq
    subst hceq
    simp [start_group_monitoring] at h
  rw [start_ok existing fetch btime ttime active fuel cs hcs, Except.ok.injEq] at h
  subst h
  constructor
  · have hl := (monitor_loopAux_counts fetch ttime active cs fuel 1
      (baselinePass (fetch 0) btime cs 0 []).1 0 0).1
    simp [closeCount_append, closeCount_headerEvents,
      (baselinePass_counts (fetch 0) btime cs 0 []).1, closeCount, baselineOf,
      loopOf, hl]
  · intro existing2 fetch2 btime2 cs2 failAt
    by_cases h2 : cs2 = []
    · subst h2
      simp [start_group_monitoring_baselineWriteError, closeCount]
    · simp [start_group_monitoring_baselineWriteError, h2, closeCount_append,
        closeCount_headerEvents, baselineEvsFail_closeCount]

/-- Witness: C5's amended statement evaluated on a concrete one-control
session stopped after one tick. -/
theorem C5_witness :
    closeCount (sessionEvents (start_group_monitoring none fetchAlwaysOn btime0
      ttime0 activeOneTick 2 [ctrlA])) = 1 := by
  have hok := start_ok none fetchAlwaysOn btime0 ttime0 activeOneTick 2 [ctrlA] (by decide)
  have h := (C5_close_amended none fetchAlwaysOn btime0 ttime0 activeOneTick 2 1 [ctrlA] _ hok
    (fun u h1 h2 => by simp only [activeOneTick, decide_eq_true_eq]; exact h2)
    (by decide) (by decide)).1
  rw [hok]
  exact h

/-! ## Claim C6 -/

/-- C6 as stated is false on the code: `start_group_monitoring` has no
return statement, so its caller receives `None`; the final counters are
only printed to the console by the monitoring thread (source lines
566-567).  Concretely, a successful one-control session returns nothing
to the caller. -/
theorem C6_counterexample :
    sessionOk (start_group_monitoring none fetchAlwaysOn btime0 ttime0
      activeNever 1 [ctrlA]) = true ∧
    sessionReturned (start_group_monitoring none fetchAlwaysOn btime0 ttime0
      activeNever 1 [ctrlA]) = none := by
  decide

/-- C6 amended: when the session stops, the final counter values are
surfaced on the operator console (the prints at source lines 566-567),
and they are the true totals — `checksPerformed` equals the number of
completed ticks and `changesWritten` equals the number of change
records written by the loop — but they are not returned to the caller
of `start_group_monitoring`, which receives `None`. -/
theorem C6_counters_amended (existing : Option (List Line))
    (fetch : Nat → String → Option String) (btime ttime : Nat → String)
    (active : Nat → Bool) (fuel n : Nat) (cs : List Control) (r : SessionResult)
    (h : start_group_monitoring existing fetch btime ttime active fuel cs = Except.ok r)
    (htrue : ∀ u, 1 ≤ u → u ≤ n → active u = true)
    (hfalse : active (n + 1) = false) (hfuel : n < fuel) :
    r.returned = none ∧
    r.finalReport = some (r.checks, r.changes) ∧
    r.checks = n ∧
    r.changes = writeCount (loopOf fetch btime ttime active fuel cs).2.1 := by
  have hcs : cs ≠ [] := by
    intro hceq
    subst hceq
    simp [start_group_monitoring] at h
  rw [start_ok existing fetch btime ttime active fuel cs hcs, Except.ok.injEq] at h
  subst h
  refine ⟨rfl, rfl, ?_, ?_⟩
  · have hstop := monitor_loopAux_stop fetch ttime active cs n fuel 1
      (baselineOf fetch btime cs).1 0 0
      (fun u h1 h2 => htrue u h1 (by omega))
      (by have heq : 1 + n = n + 1 := by omega
          rw [heq]; exact hfalse) hfuel
    show (loopOf fetch btime ttime active fuel cs).2.2.1 = n
    rw [loopOf, hstop, runTicksAux_checks]
    omega
  · have hch := monitor_loopAux_changes fetch ttime active cs fuel 1
      (baselineOf fetch btime cs).1 0 0
    show (loopOf fetch btime ttime active fuel cs).2.2.2 =
      writeCount (loopOf fetch btime ttime active fuel cs).2.1
    rw [loopOf]
    omega

/-- Witness: C6's amended statement evaluated on a concrete one-control
session that runs one tick and writes one change record. -/
theorem C6_witness :
    sessionReturned (start_group_monitoring none fetchOnThenOff btime0 ttime0
      activeOneTick 2 [ctrlA]) = none ∧
    sessionFinalReport (start_group_monitoring none fetchOnThenOff btime0 ttime0
      activeOneTick 2 [ctrlA]) = some (1, 1) := by
  have hok := start_ok none fetchOnThenOff btime0 ttime0 activeOneTick 2 [ctrlA] (by decide)
  have h := C6_counters_amended none fetchOnThenOff btime0 ttime0 activeOneTick 2 1 [ctrlA] _ hok
    (fun u h1 h2 => by simp only [activeOneTick, decide_eq_true_eq]; exact h2)
    (by decide) (by decide)
  exact ⟨by rw [hok]; exact h.1, by decide⟩

/-! ## Claim C1 -/

/-- C1: within any tick of the monitoring loop, for each monitored
entity (uuids pairwise distinct), a change record is written during the
tick exactly when the fetch succeeded and the fetched state differs
from the state stored for the entity when it is visited (absence
counting as different); and in that case exactly one row is written,
its state column is the fetched state, and the table entry is updated
to it, while in the equal case nothing is written and the entry is
unchanged. -/
theorem C1_change_record_iff (f : String → Option String) (ts : String) :
    ∀ (cs : List Control) (st : Table) (ch : Nat) (c : Control),
      distinctUuids cs → c ∈ cs →
      ((writesFor c.uuid (tickControls f ts cs st ch).2.1 ≠ [] ↔
         ∃ new, f c.uuid = some new ∧ some new ≠ tableGet st c.uuid) ∧
       (∀ new, f c.uuid = some new → some new ≠ tableGet st c.uuid →
         writesFor c.uuid (tickControls f ts cs st ch).2.1 = [mkRow ts c new] ∧
         tableGet (tickControls f ts cs st ch).1 c.uuid = some new) ∧
       (∀ new, f c.uuid = some new → some new = tableGet st c.uuid →
         writesFor c.uuid (tickControls f ts cs st ch).2.1 = [] ∧
         tableGet (tickControls f ts cs st ch).1 c.uuid = tableGet st c.uuid))
  | [], st, ch, c, _, hc => absurd hc (by simp)
  | a :: rest, st, ch, c, hd, hc => by
      have hd' : (List.map Control.uuid (a :: rest)).Nodup := hd
      rw [List.map_cons, List.nodup_cons] at hd'
      obtain ⟨hnotmem, hd2⟩ := hd'
      have hrest_ne : ∀ c2 ∈ rest, c2.uuid ≠ a.uuid := by
        intro c2 h2 heq
        exact hnotmem (heq ▸ List.mem_map_of_mem Control.uuid h2)
      rcases List.mem_cons.mp hc with hca | hcr
      · subst hca
        cases hf : f c.uuid with
        | none =>
            rw [tickControls_cons, tickControl_fetch_none f ts c st ch hf]
            dsimp only
            rw [List.nil_append]
            have hloc := tickControls_locality f ts rest st ch c.uuid hrest_ne
            refine ⟨?_, ?_, ?_⟩
            · rw [hloc.1]
              constructor
              · intro hx; exact absurd rfl hx
              · rintro ⟨new, hnew, -⟩
                exact Option.noConfusion hnew
            · intro new hnew
              exact absurd hnew (by simp)
            · intro new hnew
              exact absurd hnew (by simp)
        | some new =>
            by_cases heq : some new = tableGet st c.uuid
            · rw [tickControls_cons, tickControl_fetch_same f ts c st ch new hf heq]
              dsimp only
              rw [List.nil_append]
              have hloc := tickControls_locality f ts rest st ch c.uuid hrest_ne
              refine ⟨?_, ?_, ?_⟩
              · rw [hloc.1]
                constructor
                · intro hx; exact absurd rfl hx
                · rintro ⟨new2, hnew2, hne2⟩
                  injection hnew2 with hn2
                  subst hn2
                  exact absurd heq hne2
              · intro new2 hnew2 hne2
                injection hnew2 with hn2
                subst hn2
                exact absurd heq hne2
              · intro new2 hnew2 _
                exact ⟨hloc.1, hloc.2⟩
            · rw [tickControls_cons, tickControl_fetch_diff f ts c st ch new hf heq]
              dsimp only
              have hloc := tickControls_locality f ts rest
                (tableSet st c.uuid new) (ch + 1) c.uuid hrest_ne
              rw [writesFor_append, hloc.1]
              refine ⟨?_, ?_, ?_⟩
              · constructor
                · intro _
                  exact ⟨new, rfl, heq⟩
                · intro _
                  simp [writesFor, mkRow]
              · intro new2 hnew2 _
                injection hnew2 with hn2
                subst hn2
                constructor
                · simp [writesFor, mkRow]
                · rw [hloc.2, tableGet_tableSet_self]
              · intro new2 hnew2 heq2
                injection hnew2 with hn2
                subst hn2
                exact absurd heq2 heq
      · have hca : a.uuid ≠ c.uuid := by
          intro heq2
          exact hnotmem (heq2 ▸ List.mem_map_of_mem Control.uuid hcr)
        have hloc := tickControl_locality f ts a st ch c.uuid hca
        have ih := C1_change_record_iff f ts rest (tickControl f ts a st ch).1
          (tickControl f ts a st ch).2.2 c hd2 hcr
        rw [hloc.2] at ih
        rw [tickControls_cons]
        dsimp only
        rw [writesFor_append, hloc.1, List.nil_append]
        exact ih

/-- Witness: C1 applied to a concrete two-control tick in which the
first control's state differs from its stored state. -/
theorem C1_witness :
    writesFor ctrlA.uuid (tickControls fOn "T1" [ctrlA, ctrlB] [] 0).2.1 =
      [mkRow "T1" ctrlA "on"] ∧
    tableGet (tickControls fOn "T1" [ctrlA, ctrlB] [] 0).1 ctrlA.uuid = some "on" :=
  (C1_change_record_iff fOn "T1" [ctrlA, ctrlB] [] 0 ctrlA
    (by unfold distinctUuids; decide) (by decide)).2.1 "on" rfl (by decide)

/-! ## Claim C2 -/

theorem baseline_skip (f : String → Option String) (b : Nat → String) :
    ∀ (cs : List Control) (i : Nat) (st : Table) (c : Control),
      distinctUuids cs → c ∈ cs → f c.uuid = none →
      tableGet (baselinePass f b cs i st).1 c.uuid = tableGet st c.uuid ∧
      writesFor c.uuid (baselinePass f b cs i st).2 = []
  | [], _, st, c, _, hc, _ => absurd hc (by simp)
  | a :: rest, i, st, c, hd, hc, hf => by
      have hd' : (List.map Control.uuid (a :: rest)).Nodup := hd
      rw [List.map_cons, List.nodup_cons] at hd'
      obtain ⟨hnotmem, hd2⟩ := hd'
      have hrest_ne : ∀ c2 ∈ rest, c2.uuid ≠ a.uuid := by
        intro c2 h2 heq
        exact hnotmem (heq ▸ List.mem_map_of_mem Control.uuid h2)
      rcases List.mem_cons.mp hc with hca | hcr
      · subst hca
        rw [baselinePass_cons_none f b c rest i st hf]
        have h := baselinePass_locality f b rest (i + 1) st c.uuid hrest_ne
        exact ⟨h.2, h.1⟩
      · have hca : a.uuid ≠ c.uuid := by
          intro heq2
          exact hnotmem (heq2 ▸ List.mem_map_of_mem Control.uuid hcr)
        cases hfa : f a.uuid with
        | none =>
            rw [baselinePass_cons_none f b a rest i st hfa]
            exact baseline_skip f b rest (i + 1) st c hd2 hcr hf
        | some s =>
            rw [baselinePass_cons_some f b a rest i st s hfa]
            dsimp only
            have ih := baseline_skip f b rest (i + 1) (tableSet st a.uuid s) c hd2 hcr hf
            constructor
            · rw [ih.1, tableGet_tableSet_ne st a.uuid s c.uuid hca]
            · simp [writesFor, mkRow, hca, ih.2]

theorem tick_skip (f : String → Option String) (ts : String) :
    ∀ (cs : List Control) (st : Table) (ch : Nat) (c : Control),
      distinctUuids cs → c ∈ cs → f c.uuid = none →
      tableGet (tickControls f ts cs st ch).1 c.uuid = tableGet st c.uuid ∧
      writesFor c.uuid (tickControls f ts cs st ch).2.1 = []
  | [], st, ch, c, _, hc, _ => absurd hc (by simp)
  | a :: rest, st, ch, c, hd, hc, hf => by
      have hd' : (List.map Control.uuid (a :: rest)).Nodup := hd
      rw [List.map_cons, List.nodup_cons] at hd'
      obtain ⟨hnotmem, hd2⟩ := hd'
      have hrest_ne : ∀ c2 ∈ rest, c2.uuid ≠ a.uuid := by
        intro c2 h2 heq
        exact hnotmem (heq ▸ List.mem_map_of_mem Control.uuid h2)
      rcases List.mem_cons.mp hc with hca | hcr
      · subst hca
        rw [tickControls_cons, tickControl_fetch_none f ts c st ch hf]
        dsimp only
        rw [List.nil_append]
        have h := tickControls_locality f ts rest st ch c.uuid hrest_ne
        exact ⟨h.2, h.1⟩
      · have hca : a.uuid ≠ c.uuid := by
          intro heq2
          exact hnotmem (heq2 ▸ List.mem_map_of_mem Control.uuid hcr)
        have hloc := tickControl_locality f ts a st ch c.uuid hca
        have ih := tick_skip f ts rest (tickControl f ts a st ch).1
          (tickControl f ts a st ch).2.2 c hd2 hcr hf
        rw [tickControls_cons]
        dsimp only
        rw [writesFor_append, hloc.1, List.nil_append]
        exact ⟨ih.1.trans hloc.2, ih.2⟩

/-- C2: for every entity (uuids pairwise distinct) and both for the
baseline pass and for any single tick, when the state fetch returns
`None` the entity is skipped: its last-known-state entry is exactly
what it was before the pass (an existing value is never overwritten or
erased) and no row is written for it during that pass. -/
theorem C2_unavailable_skips :
    (∀ (f : String → Option String) (b : Nat → String) (cs : List Control)
       (i : Nat) (st : Table) (c : Control),
       distinctUuids cs → c ∈ cs → f c.uuid = none →
       tableGet (baselinePass f b cs i st).1 c.uuid = tableGet st c.uuid ∧
       writesFor c.uuid (baselinePass f b cs i st).2 = []) ∧
    (∀ (f : String → Option String) (ts : String) (cs : List Control)
       (st : Table) (ch : Nat) (c : Control),
       distinctUuids cs → c ∈ cs → f c.uuid = none →
       tableGet (tickControls f ts cs st ch).1 c.uuid = tableGet st c.uuid ∧
       writesFor c.uuid (tickControls f ts cs st ch).2.1 = []) :=
  ⟨fun f b cs i st c hd hc hf => baseline_skip f b cs i st c hd hc hf,
   fun f ts cs st ch c hd hc hf => tick_skip f ts cs st ch c hd hc hf⟩

/-- Witness: C2 applied to a concrete baseline pass in which the only
control's fetch is unavailable while the table already holds a stale
value for it — the stale value is preserved and nothing is written. -/
theorem C2_witness :
    tableGet (baselinePass fNone btime0 [ctrlA] 0 [("uuid-a", "5")]).1 ctrlA.uuid =
      tableGet [("uuid-a", "5")] ctrlA.uuid ∧
    writesFor ctrlA.uuid (baselinePass fNone btime0 [ctrlA] 0 [("uuid-a", "5")]).2 = [] :=
  C2_unavailable_skips.1 fNone btime0 [ctrlA] 0 [("uuid-a", "5")] ctrlA
    (by unfold distinctUuids; decide) (by decide) rfl

/-! ## Claim C8 -/

/-- C8: cancellation is cooperative and observed only at tick
boundaries.  If the stop flag reads true at the boundary checks of
ticks 1..n and false at check n+1 — in particular when the signal is
raised while tick n is in progress, after its boundary check — then the
loop's outcome equals that of exactly n complete ticks
(`runTicksAux`, in which every tick processes the whole control list in
order, writing all its pending change records), no tick beyond n
contributes anything, and the checks counter equals n. -/
theorem C8_cooperative_stop (fetch : Nat → String → Option String)
    (ttime : Nat → String) (active : Nat → Bool) (cs : List Control)
    (st : Table) (n fuel : Nat)
    (htrue : ∀ u, 1 ≤ u → u ≤ n → active u = true)
    (hfalse : active (n + 1) = false) (hfuel : n < fuel) :
    monitor_loopAux fetch ttime active cs fuel 1 st 0 0 =
      runTicksAux fetch ttime cs n 1 st 0 0 ∧
    (monitor_loopAux fetch ttime active cs fuel 1 st 0 0).2.2.1 = n := by
  have h := monitor_loopAux_stop fetch ttime active cs n fuel 1 st 0 0
    (fun u h1 h2 => htrue u h1 (by omega))
    (by have heq : 1 + n = n + 1 := by omega
        rw [heq]; exact hfalse) hfuel
  refine ⟨h, ?_⟩
  rw [h, runTicksAux_checks]
  omega

/-- Witness: C8 on a concrete flag raised during tick 1 (true at
boundary check 1, false at check 2): the loop equals one complete
tick. -/
theorem C8_witness :
    monitor_loopAux fetchOnThenOff ttime0 activeOneTick [ctrlA] 2 1
      [("uuid-a", "on")] 0 0 =
      runTicksAux fetchOnThenOff ttime0 [ctrlA] 1 1 [("uuid-a", "on")] 0 0 ∧
    (monitor_loopAux fetchOnThenOff ttime0 activeOneTick [ctrlA] 2 1
      [("uuid-a", "on")] 0 0).2.2.1 = 1 :=
  C8_cooperative_stop fetchOnThenOff ttime0 activeOneTick [ctrlA]
    [("uuid-a", "on")] 1 2
    (fun u h1 h2 => by simp only [activeOneTick, decide_eq_true_eq]; exact h2)
    (by decide) (by decide)

/-! ## Claim C10 -/

/-- C10: invariant kept by the baseline pass and by every tick (the
quantification over every flag schedule and fuel yields it at every
tick boundary): whenever an entity has an entry in the last-known-state
table, a row for that entity whose state column equals that exact
stored value has been appended to the log, and the stored value equals
the state column of the most recent row written for that entity — the
table never holds s state that was not durably logged. -/
theorem C10_table_logged_invariant (existing : Option (List Line))
    (fetch : Nat → String → Option String) (btime ttime : Nat → String)
    (active : Nat → Bool) (fuel : Nat) (cs : List Control) :
    Inv (sessionTable (start_group_monitoring existing fetch btime ttime active fuel cs))
      (sessionEvents (start_group_monitoring existing fetch btime ttime active fuel cs)) := by
  by_cases hcs : cs = []
  · subst hcs
    exact Inv_empty_table []
  · rw [start_ok existing fetch btime ttime active fuel cs hcs]
    simp only [sessionTable, sessionEvents, baselineOf, loopOf]
    have hbase := Inv_baselinePass (fetch 0) btime cs 0 [] [] (Inv_empty_table [])
    rw [List.nil_append] at hbase
    have hloop := Inv_monitor_loopAux fetch ttime active cs fuel 1
      (baselinePass (fetch 0) btime cs 0 []).1 0 0
      (baselinePass (fetch 0) btime cs 0 []).2 hbase
    exact Inv_of_writesFor_eq _ ((baselinePass (fetch 0) btime cs 0 []).2 ++
      (monitor_loopAux fetch ttime active cs fuel 1
        (baselinePass (fetch 0) btime cs 0 []).1 0 0).2.1) _
      (fun u => by simp [writesFor_append, writesFor_headerEvents, writesFor]) hloop

/-- Witness: C10 instantiated on a concrete one-control session with a
baseline record and one change record. -/
theorem C10_witness :
    Inv (sessionTable (start_group_monitoring none fetchOnThenOff btime0 ttime0
        activeOneTick 2 [ctrlA]))
      (sessionEvents (start_group_monitoring none fetchOnThenOff btime0 ttime0
        activeOneTick 2 [ctrlA])) :=
  C10_table_logged_invariant none fetchOnThenOff btime0 ttime0 activeOneTick 2 [ctrlA]

end Lox
